import Mathlib

/-!
Verification development for the graph-analytics core of the BASE_DE_DATOS
backend (`backend/app/repositories/graph_repository.py`,
`backend/app/services/graph_service.py`, and the FastAPI route layer in
`backend/app/api/v1/routes/graph.py`).

The repository talks to Apache AGE through openCypher queries.  The embedding
models the property graph itself (people, directed `CONECTADO` edges, hobbies,
`TIENE_HOBBY` edges) and gives executable Lean semantics to each query the
repository issues: variable-length undirected matches enforce openCypher
relationship uniqueness (no relationship is used twice in one path), `DISTINCT`
is list deduplication, `ORDER BY` is a stable sort, `LIMIT` is `List.take`.
Row decoding of agtype envelopes is modelled separately (the `Json` /
`parse_agtype_array` / `parse_agtype` section) because the decoder claims are
about the raw string level, while the query results are modelled as typed rows.

Python floats are modelled as exact rationals, and `round(x, n)` as rounding
half to even at the n-th decimal.  Python string helpers used by the decoder
(`str.strip`, `str.split`, `json.loads`) are modelled by executable functions
on character lists.
-/

/-- Person vertex (`backend/app/models/entities/usuario.py`). -/
structure Usuario where
  id_usuario : Nat
  nombre : String
  apellidos : String
  edad : Nat
  latitud : ℚ
  longitud : ℚ
deriving DecidableEq

/-- Hobby vertex (static reference data). -/
structure Hobby where
  id_hobby : Nat
  nombre : String
deriving DecidableEq

/-- Snapshot of the social property graph: `Usuario` vertices, directed
`CONECTADO` edges between usuario ids, `Hobby` vertices and directed
`TIENE_HOBBY` edges from usuario ids to hobby ids. -/
structure Grafo where
  usuarios : List Usuario
  conexiones : List (Nat × Nat)
  hobbies : List Hobby
  tiene_hobby : List (Nat × Nat)
deriving DecidableEq

/-- Vertex-by-id lookup (`UsuarioRepository.find_by_id`): the usuario vertex
with the given `id_usuario`, if any. -/
def find_by_id (g : Grafo) (id : Nat) : Option Usuario :=
  g.usuarios.find? (fun u => u.id_usuario = id)

-- ============================================================================
-- Stable sort (model of openCypher ORDER BY; ties keep discovery order)
-- ============================================================================

/-- Insert `x` into `l`, before the first element `y` with `le x y`. -/
def insertBy (le : α → α → Bool) (x : α) : List α → List α
  | [] => [x]
  | y :: ys => if le x y then x :: y :: ys else y :: insertBy le x ys

/-- Stable insertion sort; models `ORDER BY` of the Cypher queries. -/
def sortBy (le : α → α → Bool) (l : List α) : List α :=
  l.foldr (insertBy le) []

theorem mem_insertBy (le : α → α → Bool) (x : α) (l : List α) (a : α) :
    a ∈ insertBy le x l ↔ a = x ∨ a ∈ l := by
  induction l with
  | nil => simp [insertBy]
  | cons y ys ih =>
      by_cases h : le x y = true
      · simp [insertBy, h]
      · simp [insertBy, h, ih]
        tauto

theorem mem_sortBy (le : α → α → Bool) (l : List α) (a : α) :
    a ∈ sortBy le l ↔ a ∈ l := by
  induction l with
  | nil => simp [sortBy]
  | cons y ys ih => simp [sortBy, mem_insertBy] at *; tauto

theorem pairwise_insertBy (le : α → α → Bool)
    (total : ∀ a b, le a b = true ∨ le b a = true)
    (trans : ∀ a b c, le a b = true → le b c = true → le a c = true)
    (x : α) (l : List α) (h : l.Pairwise (fun a b => le a b = true)) :
    (insertBy le x l).Pairwise (fun a b => le a b = true) := by
  induction l with
  | nil => simp [insertBy]
  | cons y ys ih =>
      rcases List.pairwise_cons.mp h with ⟨hy, hys⟩
      by_cases hxy : le x y = true
      · rw [insertBy, if_pos hxy]
        refine List.pairwise_cons.mpr ⟨?_, h⟩
        intro b hb
        rcases List.mem_cons.mp hb with rfl | hb
        · exact hxy
        · exact trans x y b hxy (hy b hb)
      · rw [insertBy, if_neg hxy]
        refine List.pairwise_cons.mpr ⟨?_, ih hys⟩
        intro b hb
        rcases (mem_insertBy le x ys b).mp hb with rfl | hb
        · rcases total y b with hyb | hby
          · exact hyb
          · exact absurd hby hxy
        · exact hy b hb

theorem pairwise_sortBy (le : α → α → Bool)
    (total : ∀ a b, le a b = true ∨ le b a = true)
    (trans : ∀ a b c, le a b = true → le b c = true → le a c = true)
    (l : List α) :
    (sortBy le l).Pairwise (fun a b => le a b = true) := by
  induction l with
  | nil => simp [sortBy]
  | cons y ys ih => exact pairwise_insertBy le total trans y (sortBy le ys) ih

theorem length_insertBy (le : α → α → Bool) (x : α) (l : List α) :
    (insertBy le x l).length = l.length + 1 := by
  induction l with
  | nil => simp [insertBy]
  | cons y ys ih => by_cases h : le x y = true <;> simp [insertBy, h, ih]

theorem length_sortBy (le : α → α → Bool) (l : List α) :
    (sortBy le l).length = l.length := by
  induction l with
  | nil => simp [sortBy]
  | cons y ys ih => simp [sortBy, length_insertBy] at *; omega

-- ============================================================================
-- Undirected variable-length path matching (Cypher `-[:CONECTADO*k]-`)
-- ============================================================================

/-- Vertices reachable from `a` across one undirected use of edge `e`
(an edge can be crossed with or against its direction). -/
def undirSuccs (a : Nat) (e : Nat × Nat) : List Nat :=
  (if e.1 = a then [e.2] else []) ++ (if e.2 = a then [e.1] else [])

/-- All vertex sequences of undirected `CONECTADO` chains of length `k`
starting at `a`, avoiding the already `used` relationships (openCypher
relationship uniqueness).  Each returned list of vertex ids has `k + 1`
entries. -/
def undirPaths (g : Grafo) (a : Nat) : Nat → List (Nat × Nat) → List (List Nat)
  | 0, _ => [[a]]
  | Nat.succ k, used =>
      (g.conexiones.filter (fun e => !(used.contains e))).flatMap (fun e =>
        (undirSuccs a e).flatMap (fun c =>
          (undirPaths g c k (e :: used)).map (fun p => a :: p)))

theorem length_of_mem_undirPaths (g : Grafo) :
    ∀ (k : Nat) (a : Nat) (used : List (Nat × Nat)) (p : List Nat),
      p ∈ undirPaths g a k used → p.length = k + 1 := by
  intro k
  induction k with
  | zero => intro a used p hp; simp [undirPaths] at hp; simp [hp]
  | succ k ih =>
      intro a used p hp
      simp only [undirPaths, List.mem_flatMap, List.mem_map, List.mem_filter] at hp
      rcases hp with ⟨e, _, c, _, q, hq, rfl⟩
      simp [ih c (e :: used) q hq]

/-- Semantics of the existence probe issued by `find_shortest_path` at a fixed
depth: does some undirected `CONECTADO` chain of exactly `k` relationships join
`a` and `b`? -/
def chainExists (g : Grafo) (a b : Nat) (k : Nat) : Bool :=
  (undirPaths g a k []).any (fun p => p.getLast? == some b)

/-- Semantics of the `LIMIT 1` path materialisation query: the first matched
chain of length `k` from `a` to `b`, as its vertex-id sequence. -/
def findPathAtDepth (g : Grafo) (a b : Nat) (k : Nat) : Option (List Nat) :=
  (undirPaths g a k []).find? (fun p => p.getLast? == some b)

theorem findPathAtDepth_isSome (g : Grafo) (a b k : Nat) :
    (findPathAtDepth g a b k).isSome = chainExists g a b k := by
  rw [Bool.eq_iff_iff]
  simp [findPathAtDepth, chainExists, List.find?_isSome, List.any_eq_true]

theorem findPathAtDepth_length (g : Grafo) (a b k : Nat) (p : List Nat)
    (h : findPathAtDepth g a b k = some p) : p.length = k + 1 :=
  length_of_mem_undirPaths g k a [] p (List.mem_of_find?_eq_some h)

-- ============================================================================
-- Shortest path (GraphRepository.find_shortest_path, lines 22-89)
-- ============================================================================

/-- Path node row produced by the `UNWIND nodes(path)` materialisation query
(`id_usuario`, `nombre_completo = nombre + " " + apellidos`). -/
structure PathNode where
  id_usuario : Nat
  nombre_completo : String
deriving DecidableEq

/-- Build the path entry for a vertex id the way the materialisation query
reads the node properties back.  Edge endpoints of a well-formed graph always
resolve; the fallback branch is never reached there. -/
def mkPathNode (g : Grafo) (vid : Nat) : PathNode :=
  match find_by_id g vid with
  | some u => { id_usuario := u.id_usuario, nombre_completo := u.nombre ++ " " ++ u.apellidos }
  | none => { id_usuario := vid, nombre_completo := "" }

/-- One iteration step of the depth loop of `find_shortest_path`: try each
depth of `depths` in order; at the first depth whose existence probe matches,
run the materialisation query and return the node list.  The second component
counts the store queries issued (one probe per failed depth; probe plus
materialisation at the successful depth). -/
def fspAux (g : Grafo) (o d : Nat) : List Nat → Option (List PathNode) × Nat
  | [] => (none, 0)
  | depth :: rest =>
      match findPathAtDepth g o d depth with
      | some vids =>
          let path := vids.map (mkPathNode g)
          (if path.isEmpty then none else some path, 2)
      | none =>
          let r := fspAux g o d rest
          (r.1, r.2 + 1)

/-- Model of `GraphRepository.find_shortest_path`: iterative deepening over
depths `1..max_depth`, returning the first chain found (`none` when no chain
exists within the bound) together with the number of store queries issued. -/
def find_shortest_path (g : Grafo) (o d : Nat) (max_depth : Nat) :
    Option (List PathNode) × Nat :=
  fspAux g o d (List.range' 1 max_depth)

/-- HTTP-level error raised by the service layer (`HTTPException`). -/
structure HttpError where
  status_code : Nat
  detail : String
deriving DecidableEq

/-- Response DTO of the shortest-path endpoint (`ShortestPathResponseDTO`);
the Python field `exists` is named `path_exists` here because `exists` is a
Lean keyword. -/
structure ShortestPathResponseDTO where
  status_code : Nat
  message : String
  path : List PathNode
  length : Nat
  path_exists : Bool
deriving DecidableEq

/-- Model of `GraphService.get_shortest_path`: validate that both usuarios
exist (404 otherwise), then delegate to the repository and wrap the outcome;
an absent chain is a 200 success with `path_exists = false`. -/
def noPathDTO : ShortestPathResponseDTO :=
  { status_code := 200
    message := "No existe un camino entre los usuarios"
    path := []
    length := 0
    path_exists := false }

def get_shortest_path (g : Grafo) (o d : Nat) (max_depth : Nat) :
    Except HttpError ShortestPathResponseDTO :=
  match find_by_id g o with
  | none =>
      .error { status_code := 404
               detail := "Usuario origen con ID " ++ toString o ++ " no encontrado" }
  | some _ =>
      match find_by_id g d with
      | none =>
          .error { status_code := 404
                   detail := "Usuario destino con ID " ++ toString d ++ " no encontrado" }
      | some _ =>
          match (find_shortest_path g o d max_depth).1 with
          | none => .ok noPathDTO
          | some path =>
              if path.length = 0 then
                .ok noPathDTO
              else
                .ok { status_code := 200
                      message := "Camino más corto encontrado (" ++
                        toString (path.length - 1) ++ " saltos)"
                      path := path
                      length := path.length - 1
                      path_exists := true }

theorem fspAux_all_fail (g : Grafo) (o d : Nat) (depths : List Nat)
    (h : ∀ k ∈ depths, chainExists g o d k = false) :
    fspAux g o d depths = (none, depths.length) := by
  induction depths with
  | nil => rfl
  | cons depth rest ih =>
      have hd : findPathAtDepth g o d depth = none := by
        have := findPathAtDepth_isSome g o d depth
        rw [h depth (List.mem_cons_self depth rest)] at this
        exact Option.not_isSome_iff_eq_none.mp (by simp [this])
      have hrest := ih (fun k hk => h k (List.mem_cons_of_mem depth hk))
      simp [fspAux, hd, hrest]

theorem fspAux_append_fail (g : Grafo) (o d : Nat) (pre rest : List Nat)
    (h : ∀ k ∈ pre, chainExists g o d k = false) :
    fspAux g o d (pre ++ rest) =
      ((fspAux g o d rest).1, (fspAux g o d rest).2 + pre.length) := by
  induction pre with
  | nil => simp
  | cons depth pre ih =>
      have hd : findPathAtDepth g o d depth = none := by
        have := findPathAtDepth_isSome g o d depth
        rw [h depth (List.mem_cons_self depth pre)] at this
        exact Option.not_isSome_iff_eq_none.mp (by simp [this])
      have hpre := ih (fun k hk => h k (List.mem_cons_of_mem depth hk))
      simp [fspAux, hd, hpre]
      omega

theorem find_shortest_path_none (g : Grafo) (o d : Nat) (max_depth : Nat)
    (h : ∀ k, k < max_depth + 1 → 1 ≤ k → chainExists g o d k = false) :
    find_shortest_path g o d max_depth = (none, max_depth) := by
  rw [find_shortest_path, fspAux_all_fail, List.length_range']
  intro k hk
  rw [List.mem_range'] at hk
  exact h k (by omega) (by omega)

theorem find_shortest_path_found (g : Grafo) (o d : Nat) (k max_depth : Nat)
    (hk1 : 1 ≤ k) (hk2 : k ≤ max_depth)
    (hbelow : ∀ j, j < k → 1 ≤ j → chainExists g o d j = false)
    (hchain : chainExists g o d k = true) :
    ∃ vids, findPathAtDepth g o d k = some vids ∧
      (find_shortest_path g o d max_depth).1 = some (vids.map (mkPathNode g)) ∧
      vids.length = k + 1 := by
  have hsome : (findPathAtDepth g o d k).isSome := by
    rw [findPathAtDepth_isSome, hchain]
  rcases Option.isSome_iff_exists.mp hsome with ⟨vids, hvids⟩
  have hlen := findPathAtDepth_length g o d k vids hvids
  refine ⟨vids, hvids, ?_, hlen⟩
  have hsplit : List.range' 1 max_depth = List.range' 1 (k - 1) ++ List.range' k (max_depth - (k - 1)) := by
    have h2 : List.range' 1 (k - 1) ++ List.range' (1 + (k - 1)) (max_depth - (k - 1)) =
        List.range' 1 (max_depth - (k - 1) + (k - 1)) := List.range'_append_1 1 (k - 1) (max_depth - (k - 1))
    have h3 : 1 + (k - 1) = k := by omega
    have h4 : max_depth - (k - 1) + (k - 1) = max_depth := by omega
    rw [h3, h4] at h2
    exact h2.symm
  have hkrange : List.range' k (max_depth - (k - 1)) = k :: List.range' (k + 1) (max_depth - (k - 1) - 1) := by
    have h1 : max_depth - (k - 1) = (max_depth - (k - 1) - 1) + 1 := by omega
    conv_lhs => rw [h1]
    rw [List.range'_succ]
  have hfail : ∀ j ∈ List.range' 1 (k - 1), chainExists g o d j = false := by
    intro j hj
    rw [List.mem_range'] at hj
    exact hbelow j (by omega) (by omega)
  rw [find_shortest_path, hsplit, fspAux_append_fail g o d _ _ hfail, hkrange]
  have hne : (vids.map (mkPathNode g)).isEmpty = false := by
    rw [List.isEmpty_eq_false_iff_exists_mem]
    have : vids ≠ [] := by
      intro hnil; rw [hnil] at hlen; simp at hlen
    rcases List.exists_mem_of_ne_nil vids this with ⟨v, hv⟩
    exact ⟨mkPathNode g v, List.mem_map_of_mem (mkPathNode g) hv⟩
  simp [fspAux, hvids, hne]

-- ============================================================================
-- Rounding (model of Python round(x, 2) on exact rationals)
-- ============================================================================

/-- Round a rational to the nearest integer, ties to even (Python `round`). -/
def roundHalfEven (q : ℚ) : ℤ :=
  if q - ⌊q⌋ < 1 / 2 then ⌊q⌋
  else if 1 / 2 < q - ⌊q⌋ then ⌊q⌋ + 1
  else if ⌊q⌋ % 2 = 0 then ⌊q⌋ else ⌊q⌋ + 1

/-- Model of Python `round(x, 2)` on an exact rational. -/
def pyRound2 (q : ℚ) : ℚ := (roundHalfEven (q * 100) : ℚ) / 100

-- ============================================================================
-- Recommendations (GraphRepository.get_friend_of_friend_recommendations,
-- lines 95-172)
-- ============================================================================

/-- List of the usuario ids of a graph, in vertex order. -/
def usuarioIds (g : Grafo) : List Nat := g.usuarios.map (fun u => u.id_usuario)

/-- Semantics of `collect(DISTINCT friend.id_usuario)` for a fixed `fof` row
of the friend-of-friend query: the distinct usuario ids `f` with edges
`uid -> f` and `f -> fofId`. -/
def commonFriends (g : Grafo) (uid fofId : Nat) : List Nat :=
  ((usuarioIds g).filter (fun f =>
    g.conexiones.contains (uid, f) && g.conexiones.contains (f, fofId))).dedup

/-- Row of the friend-of-friend Cypher query before `ORDER BY`/`LIMIT`: a
candidate vertex together with its common-friend id list.  A vertex is a
candidate when it is distinct from the user, not a direct out-neighbour of the
user, and reachable by at least one directed two-hop walk (its common-friend
list is then nonempty). -/
def fofRows (g : Grafo) (uid : Nat) : List (Usuario × List Nat) :=
  (g.usuarios.filter (fun fof =>
      fof.id_usuario ≠ uid &&
      !(g.conexiones.contains (uid, fof.id_usuario)) &&
      !(commonFriends g uid fof.id_usuario).isEmpty)).map
    (fun fof => (fof, commonFriends g uid fof.id_usuario))

/-- Full friend-of-friend query: filter by `size(common_friends) >= min`,
`ORDER BY size(common_friends) DESC` (stable), `LIMIT limit`. -/
def fofQuery (g : Grafo) (uid : Nat) (limit min_common_friends : Nat) :
    List (Usuario × List Nat) :=
  (sortBy (fun a b => decide (b.2.length ≤ a.2.length))
    ((fofRows g uid).filter (fun r => min_common_friends ≤ r.2.length))).take limit

/-- Entry of the recommendation list built by the repository
(`common_friends` holds the count, `common_friends_ids` the id list, as in the
Python dictionaries). -/
structure Recommendation where
  id_usuario : Nat
  nombre_completo : String
  common_friends : Nat
  common_friends_ids : List Nat
  score : ℚ
deriving DecidableEq

/-- The update step of the running maximum in the repository loop
(`if common_count > max_common: max_common = common_count`). -/
def natMaxIf (m c : Nat) : Nat := if c > m then c else m

/-- The running maximum the repository computes over the returned rows,
starting from 1 (`max_common = 1`, then `if common_count > max_common`). -/
def fofMaxCommon (rows : List (Usuario × List Nat)) : Nat :=
  rows.foldl (fun m r => natMaxIf m r.2.length) 1

/-- Model of `GraphRepository.get_friend_of_friend_recommendations`: run the
query, compute the running maximum of the common counts over the returned
rows, and score each row as `round(common_count / max_common, 2)`. -/
def get_friend_of_friend_recommendations (g : Grafo) (uid : Nat)
    (limit min_common_friends : Nat) : List Recommendation :=
  let results := fofQuery g uid limit min_common_friends
  if results.isEmpty then []
  else
    let max_common := fofMaxCommon results
    results.map (fun r =>
      { id_usuario := r.1.id_usuario
        nombre_completo := r.1.nombre ++ " " ++ r.1.apellidos
        common_friends := r.2.length
        common_friends_ids := r.2
        score := pyRound2 ((r.2.length : ℚ) / (max_common : ℚ)) })

/-- Maximum common-friend count observed within a recommendation list, as the
spec words it ("the maximum commonCount observed within the truncated
result"); 0 for an empty list. -/
def maxCommonObserved (recs : List Recommendation) : Nat :=
  (recs.map (fun r => r.common_friends)).foldl natMaxIf 0

-- ============================================================================
-- Ego subgraph (GraphRepository.get_ego_subgraph, lines 178-273)
-- ============================================================================

/-- Hobby name attached to a usuario by the `OPTIONAL MATCH
(u)-[:TIENE_HOBBY]->(h:Hobby)` clause, if any. -/
def hobbyOf (g : Grafo) (uid : Nat) : Option String :=
  (g.tiene_hobby.find? (fun e => e.1 = uid)).bind (fun e =>
    (g.hobbies.find? (fun h => h.id_hobby = e.2)).map (fun h => h.nombre))

/-- Fixed hobby-to-colour palette (`GraphRepository._get_hobby_color`);
neutral grey for an absent or unmapped hobby. -/
def get_hobby_color (hobby_name : Option String) : String :=
  match hobby_name with
  | none => "#95a5a6"
  | some h =>
      let m : List (String × String) :=
        [("futbol", "#ff6b6b"), ("basquetbol", "#ee5a6f"), ("tenis", "#f06595"),
         ("pintura", "#4ecdc4"), ("escultura", "#45b7d1"), ("fotografia", "#96ceb4"),
         ("guitarra", "#feca57"), ("piano", "#ff9ff3"),
         ("lectura", "#54a0ff"), ("cocina", "#48dbfb")]
      match m.find? (fun p => p.1 = h.toLower) with
      | some p => p.2
      | none => "#95a5a6"

/-- Usuario ids returned by the ego nodes query
`MATCH (center {id_usuario: uid})-[:CONECTADO*1..depth]-(u:Usuario) RETURN
DISTINCT u...` before the `LIMIT`: endpoints of undirected chains of length
`1..depth` from the centre, deduplicated. -/
def egoReachable (g : Grafo) (uid : Nat) (depth : Nat) : List Nat :=
  ((List.range' 1 depth).flatMap (fun k =>
      (undirPaths g uid k []).filterMap (fun p => p.getLast?))).dedup

/-- Apply the `LIMIT max_nodes` truncation to the distinct reachable ids. -/
def egoNodeIds (g : Grafo) (uid : Nat) (depth max_nodes : Nat) : List Nat :=
  (egoReachable g uid depth).take max_nodes

/-- Node record built for each returned usuario row (string id, full-name
label, coordinates scaled by 100, palette colour, metadata). -/
structure EgoNode where
  id : String
  label : String
  x : ℚ
  y : ℚ
  color : String
  edad : Nat
  hobby : Option String
deriving DecidableEq

/-- Edge record of the ego subgraph (sequential string id `e<i>`). -/
structure EgoEdge where
  id : String
  source : String
  target : String
deriving DecidableEq

/-- Build the node record of a usuario id the way the row parser does.  The
fallback branch is unreachable for ids delivered by the nodes query on a
well-formed graph. -/
def mkEgoNode (g : Grafo) (vid : Nat) : EgoNode :=
  match find_by_id g vid with
  | some u =>
      { id := toString u.id_usuario
        label := u.nombre ++ " " ++ u.apellidos
        x := u.latitud * 100
        y := u.longitud * 100
        color := get_hobby_color (hobbyOf g u.id_usuario)
        edad := u.edad
        hobby := hobbyOf g u.id_usuario }
  | none =>
      { id := toString vid, label := "", x := 0, y := 0
        color := "#95a5a6", edad := 0, hobby := none }

/-- Semantics of the edges query: all distinct `CONECTADO` edges whose two
endpoints both lie in the returned node-id set, with sequential edge ids. -/
def egoEdges (g : Grafo) (ids : List Nat) : List EgoEdge :=
  if ids.isEmpty then []
  else
    ((g.conexiones.filter (fun e => ids.contains e.1 && ids.contains e.2)).dedup).mapIdx
      (fun i e =>
        { id := "e" ++ toString i
          source := toString e.1
          target := toString e.2 })

/-- Model of `GraphRepository.get_ego_subgraph`: the node records and the edge
records of the bounded ego network. -/
def get_ego_subgraph (g : Grafo) (uid : Nat) (depth max_nodes : Nat) :
    List EgoNode × List EgoEdge :=
  let ids := egoNodeIds g uid depth max_nodes
  (ids.map (mkEgoNode g), egoEdges g ids)

/-- Statistics DTO computed by the service (`GraphStatsDTO`). -/
structure GraphStatsDTO where
  total_nodes : Nat
  total_edges : Nat
  density : ℚ
  avg_degree : ℚ
deriving DecidableEq

/-- Model of Python `round(x, 4)`. -/
def pyRound4 (q : ℚ) : ℚ := (roundHalfEven (q * 10000) : ℚ) / 10000

/-- Response of the ego-graph service call. -/
structure GraphResponseDTO where
  status_code : Nat
  message : String
  nodes : List EgoNode
  edges : List EgoEdge
  stats : GraphStatsDTO
deriving DecidableEq

/-- Model of `GraphService.get_ego_graph`, paired with the number of store
calls it performs (the usuario lookup, the nodes query, and the edges query
when the node set is nonempty).  Parameters arrive as integers from the query
string; the service itself accepts `depth` in `1..3` and `max_nodes` in
`10..2000`, and validates them only after the usuario lookup. -/
def get_ego_graph (g : Grafo) (uid : Nat) (depth max_nodes : Int) :
    Except HttpError GraphResponseDTO × Nat :=
  match find_by_id g uid with
  | none =>
      (.error { status_code := 404
                detail := "Usuario con ID " ++ toString uid ++ " no encontrado" }, 1)
  | some _ =>
      if depth < 1 || depth > 3 then
        (.error { status_code := 400
                  detail := "El parámetro depth debe estar entre 1 y 3" }, 1)
      else if max_nodes < 10 || max_nodes > 2000 then
        (.error { status_code := 400
                  detail := "El parámetro max_nodes debe estar entre 10 y 2000" }, 1)
      else
        let data := get_ego_subgraph g uid depth.toNat max_nodes.toNat
        let total_nodes := data.1.length
        let total_edges := data.2.length
        let avg_degree : ℚ := if total_nodes > 0 then 2 * total_edges / total_nodes else 0
        let max_edges : ℚ := (total_nodes * (total_nodes - 1) : Nat) / 2
        let density : ℚ := if max_edges > 0 then total_edges / max_edges else 0
        (.ok { status_code := 200
               message := "Subgrafo ego obtenido (" ++ toString total_nodes ++
                 " nodos, " ++ toString total_edges ++ " aristas)"
               nodes := data.1
               edges := data.2
               stats := { total_nodes := total_nodes
                          total_edges := total_edges
                          density := pyRound4 density
                          avg_degree := pyRound2 avg_degree } },
         1 + (if (egoNodeIds g uid depth.toNat max_nodes.toNat).isEmpty then 1 else 2))

/-- Model of the `/graph/ego/...` FastAPI endpoint: the route declares
`depth: Query(1, ge=1, le=2)` and `max_nodes: Query(500, ge=10, le=2000)`, so
FastAPI rejects an out-of-range parameter with a 422 validation error before
the handler (and hence any store access) runs; otherwise the service is
invoked.  The second component again counts store calls. -/
def ego_endpoint (g : Grafo) (uid : Nat) (depth max_nodes : Int) :
    Except HttpError GraphResponseDTO × Nat :=
  if depth < 1 || depth > 2 then
    (.error { status_code := 422, detail := "validation error" }, 0)
  else if max_nodes < 10 || max_nodes > 2000 then
    (.error { status_code := 422, detail := "validation error" }, 0)
  else get_ego_graph g uid depth max_nodes

-- ============================================================================
-- Communities (GraphRepository.detect_communities_by_hobby, lines 279-319)
-- ============================================================================

/-- Semantics of `collect(DISTINCT u.id_usuario)` grouped on a hobby: the
distinct usuario ids holding a `TIENE_HOBBY` edge to that hobby. -/
def hobbyMembers (g : Grafo) (hid : Nat) : List Nat :=
  ((usuarioIds g).filter (fun u => g.tiene_hobby.contains (u, hid))).dedup

/-- Community entry built by the repository. -/
structure Community where
  community_id : Nat
  hobby_name : String
  members : List Nat
  size : Nat
deriving DecidableEq

/-- Model of `GraphRepository.detect_communities_by_hobby`: group usuarios by
hobby, keep the groups with more than one member, order by member count
descending. -/
def detect_communities_by_hobby (g : Grafo) : List Community :=
  (sortBy (fun a b => decide (b.2.2.length ≤ a.2.2.length))
    ((g.hobbies.map (fun h => (h.id_hobby, h.nombre, hobbyMembers g h.id_hobby))).filter
      (fun r => r.2.2.length > 1))).map
    (fun r =>
      { community_id := r.1
        hobby_name := r.2.1
        members := r.2.2
        size := r.2.2.length })

-- ============================================================================
-- All connections (GraphRepository.get_all_connections, lines 404-455,
-- and GraphService.get_all_connections, lines 253-283)
-- ============================================================================

/-- Distinct direct out-neighbours of a usuario id via `CONECTADO`
(`collect(DISTINCT c.id_usuario)` of the optional match). -/
def outNeighbors (g : Grafo) (uid : Nat) : List Nat :=
  ((usuarioIds g).filter (fun c => g.conexiones.contains (uid, c))).dedup

/-- Per-usuario adjacency entry (`{"id_usuario": ..., "conexiones": [...]}`). -/
structure UsuarioConexiones where
  id_usuario : Nat
  conexiones : List Nat
deriving DecidableEq

/-- Model of `GraphRepository.get_all_connections`: every usuario in id order
with its distinct out-neighbour list, own id filtered out, entries with an
empty list dropped. -/
def get_all_connections (g : Grafo) : List UsuarioConexiones :=
  (sortBy (fun a b => decide (a.id_usuario ≤ b.id_usuario)) g.usuarios).filterMap
    (fun u =>
      let conexiones := (outNeighbors g u.id_usuario).filter
        (fun c => c ≠ u.id_usuario)
      if conexiones.isEmpty then none
      else some { id_usuario := u.id_usuario, conexiones := conexiones })

/-- Response of the all-connections service call, with its statistics. -/
structure AllConexionesResponseDTO where
  status_code : Nat
  message : String
  conexiones : List UsuarioConexiones
  total_usuarios_con_conexiones : Nat
  total_conexiones : Nat
deriving DecidableEq

/-- Model of `GraphService.get_all_connections`: wrap the repository output
and compute the statistics (`total_conexiones` sums the per-entry neighbour
list lengths). -/
def get_all_connections_service (g : Grafo) : AllConexionesResponseDTO :=
  let conexiones := get_all_connections g
  { status_code := 200
    message := "Conexiones obtenidas exitosamente"
    conexiones := conexiones
    total_usuarios_con_conexiones := conexiones.length
    total_conexiones := (conexiones.map (fun c => c.conexiones.length)).sum }

-- ============================================================================
-- Value decoder (GraphRepository._parse_agtype_array, lines 325-364, and
-- GraphRepository._parse_agtype, lines 457-477)
-- ============================================================================

/-- JSON values produced by the model of `json.loads`, restricted to the
forms an agtype envelope can carry (null, integer, string, array). -/
inductive Json where
  | jnull : Json
  | jint (n : Int) : Json
  | jstr (s : String) : Json
  | jarr (items : List Json) : Json

/-- Is this JSON value `null`? -/
def Json.isNull : Json → Bool
  | Json.jnull => true
  | _ => false

/-- Whitespace skipped by the JSON reader. -/
def isPySpace (c : Char) : Bool :=
  c = ' ' || c = '\t' || c = '\n' || c = '\r'

/-- Drop leading JSON whitespace. -/
def skipWs : List Char → List Char
  | c :: cs => if isPySpace c then skipWs cs else c :: cs
  | [] => []

/-- Read a decimal digit run (at least one digit). -/
def parseNatChars (cs : List Char) : Option (Nat × List Char) :=
  let ds := cs.takeWhile (fun c => c.isDigit)
  if ds.isEmpty then none
  else some (ds.foldl (fun acc c => acc * 10 + (c.toNat - 48)) 0, cs.drop ds.length)

/-- Read the body of a JSON string literal up to the closing quote (escape
sequences are not needed for agtype arrays and make the reader fail). -/
def parseStrBody : List Char → List Char → Option (List Char × List Char)
  | [], _ => none
  | c :: cs, acc =>
      if c = '"' then some (acc.reverse, cs)
      else if c = '\\' then none
      else parseStrBody cs (c :: acc)

mutual

/-- Recursive-descent JSON value reader (fuel-indexed). -/
def parseJsonVal : Nat → List Char → Option (Json × List Char)
  | 0, _ => none
  | Nat.succ fuel, cs =>
      match skipWs cs with
      | [] => none
      | c :: rest =>
          if c = 'n' then
            match rest with
            | 'u' :: 'l' :: 'l' :: rs => some (Json.jnull, rs)
            | _ => none
          else if c = '"' then
            (parseStrBody rest []).map (fun r => (Json.jstr (String.mk r.1), r.2))
          else if c = '[' then
            match skipWs rest with
            | ']' :: rs => some (Json.jarr [], rs)
            | rs =>
                match parseJsonVal fuel rs with
                | none => none
                | some (j, rs2) =>
                    match parseJsonItems fuel rs2 with
                    | none => none
                    | some (js, rs3) => some (Json.jarr (j :: js), rs3)
          else if c = '-' then
            (parseNatChars rest).map (fun r => (Json.jint (-(r.1 : Int)), r.2))
          else if c.isDigit then
            (parseNatChars (c :: rest)).map (fun r => (Json.jint (r.1 : Int), r.2))
          else none

/-- Reader for the remaining items of a JSON array after the first one. -/
def parseJsonItems : Nat → List Char → Option (List Json × List Char)
  | 0, _ => none
  | Nat.succ fuel, cs =>
      match skipWs cs with
      | ']' :: rs => some ([], rs)
      | ',' :: rs =>
          match parseJsonVal fuel rs with
          | none => none
          | some (j, rs2) =>
              match parseJsonItems fuel rs2 with
              | none => none
              | some (js, rs3) => some (j :: js, rs3)
      | _ => none

end

/-- Model of `json.loads`: parse one JSON value and require only whitespace
after it; `none` models a raised `JSONDecodeError`. -/
def jsonLoads (s : String) : Option Json :=
  match parseJsonVal (2 * s.length + 2) s.data with
  | some (j, rest) => if (skipWs rest).isEmpty then some j else none
  | none => none

/-- Model of Python `str.strip()`. -/
def pyStrip (s : String) : String :=
  String.mk (((s.data.dropWhile isPySpace).reverse.dropWhile isPySpace).reverse)

/-- Characters before the first `::` occurrence, `none` when there is no
occurrence (drives the type-tag membership test of the decoder). -/
def beforeDoubleColon : List Char → Option (List Char)
  | ':' :: ':' :: _ => some []
  | c :: cs => (beforeDoubleColon cs).map (fun r => c :: r)
  | [] => none

/-- The agtype type-tag stripping step: when `::` occurs, take the text
before its first occurrence and strip it; identity otherwise. -/
def stripTypeTag (clean : String) : String :=
  match beforeDoubleColon clean.data with
  | some pre => pyStrip (String.mk pre)
  | none => clean

/-- Python runtime values that can reach the decoder: `None`, ints, strings,
byte strings (given by their UTF-8 decoding) and lists. -/
inductive PyVal where
  | pynone : PyVal
  | pyint (n : Int) : PyVal
  | pystr (s : String) : PyVal
  | pybytes (s : String) : PyVal
  | pylist (items : List PyVal) : PyVal

/-- Is this runtime value `None`? -/
def PyVal.isNone : PyVal → Bool
  | PyVal.pynone => true
  | _ => false

/-- Digit run to number. -/
def natOfDigits (ds : List Char) : Nat :=
  ds.foldl (fun a c => a * 10 + (c.toNat - 48)) 0

/-- Model of Python `int(str)`: optional surrounding whitespace, optional
sign, then at least one digit; `none` models a raised `ValueError`. -/
def pyIntOfString (s : String) : Option Int :=
  match (pyStrip s).data with
  | '-' :: ds =>
      if !ds.isEmpty && ds.all (fun c => c.isDigit) then some (-(natOfDigits ds : Int))
      else none
  | '+' :: ds =>
      if !ds.isEmpty && ds.all (fun c => c.isDigit) then some (natOfDigits ds)
      else none
  | ds =>
      if !ds.isEmpty && ds.all (fun c => c.isDigit) then some (natOfDigits ds)
      else none

/-- Python `int(item)` on a JSON-decoded array element. -/
def intOfJson : Json → Except String Int
  | Json.jint n => .ok n
  | Json.jstr s =>
      match pyIntOfString s with
      | some n => .ok n
      | none => .error "ValueError"
  | Json.jnull => .error "TypeError"
  | Json.jarr _ => .error "TypeError"

/-- Python `int(item)` on a native list element. -/
def pyIntOfVal : PyVal → Except String Int
  | PyVal.pyint n => .ok n
  | PyVal.pystr s =>
      match pyIntOfString s with
      | some n => .ok n
      | none => .error "ValueError"
  | _ => .error "TypeError"

/-- String branch of `GraphRepository._parse_agtype_array`: strip, special
case the empty and `[]` strings, strip the `::` type tag, `json.loads`, keep
integer elements.  A `JSONDecodeError` and a non-list parse both fall through
to `return []`. -/
def parse_agtype_array_str (s : String) : Except String (List Int) :=
  let clean := pyStrip s
  if clean = "" || clean = "[]" then .ok []
  else
    let clean2 := stripTypeTag clean
    match jsonLoads clean2 with
    | some (Json.jarr items) => (items.filter (fun j => !(Json.isNull j))).mapM intOfJson
    | some _ => .ok []
    | none => .ok []

/-- Model of `GraphRepository._parse_agtype_array` over the runtime value the
row can hold.  `Except.error` models an uncaught Python exception; all decode
failures of the string branch are swallowed into `.ok []`. -/
def parse_agtype_array : PyVal → Except String (List Int)
  | PyVal.pynone => .ok []
  | PyVal.pybytes s => parse_agtype_array_str s
  | PyVal.pylist items => (items.filter (fun v => !(PyVal.isNone v))).mapM pyIntOfVal
  | PyVal.pystr s => parse_agtype_array_str s
  | PyVal.pyint _ => .ok []

/-- Model of `GraphRepository._parse_agtype`: `json.loads` of the printed
value, falling back to the raw string when parsing fails. -/
def parse_agtype (v : Option String) : Option (Json ⊕ String) :=
  match v with
  | none => none
  | some s =>
      match jsonLoads s with
      | some j => some (Sum.inl j)
      | none => some (Sum.inr s)

-- ============================================================================
-- Helper lemmas
-- ============================================================================

theorem init_le_foldl_natMaxIf (L : List Nat) (a : Nat) : a ≤ L.foldl natMaxIf a := by
  induction L generalizing a with
  | nil => simp
  | cons y ys ih =>
      simp only [List.foldl_cons]
      refine Nat.le_trans ?_ (ih (natMaxIf a y))
      simp only [natMaxIf]
      split <;> omega

theorem mem_le_foldl_natMaxIf (x : Nat) :
    ∀ (L : List Nat), x ∈ L → ∀ a, x ≤ L.foldl natMaxIf a := by
  intro L
  induction L with
  | nil => intro hx; cases hx
  | cons y ys ih =>
      intro hx a
      rcases List.mem_cons.mp hx with rfl | hx2
      · simp only [List.foldl_cons]
        refine Nat.le_trans ?_ (init_le_foldl_natMaxIf ys (natMaxIf a x))
        simp only [natMaxIf]
        split <;> omega
      · exact ih hx2 (natMaxIf a y)

theorem foldl_natMaxIf_init (L : List Nat) (a : Nat) :
    L.foldl natMaxIf a = natMaxIf a (L.foldl natMaxIf 0) := by
  induction L generalizing a with
  | nil =>
      simp only [List.foldl_nil, natMaxIf]
      split_ifs <;> omega
  | cons y ys ih =>
      simp only [List.foldl_cons]
      rw [ih (natMaxIf a y), ih (natMaxIf 0 y)]
      simp only [natMaxIf]
      split_ifs <;> omega

theorem foldl_natMaxIf_one (L : List Nat) (h : ∃ x ∈ L, 1 ≤ x) :
    L.foldl natMaxIf 1 = L.foldl natMaxIf 0 := by
  rcases h with ⟨x, hx, hx1⟩
  have h0 : 1 ≤ L.foldl natMaxIf 0 :=
    Nat.le_trans hx1 (mem_le_foldl_natMaxIf x L hx 0)
  rw [foldl_natMaxIf_init L 1]
  simp only [natMaxIf]
  split <;> omega

theorem contains_iff_mem {α : Type} [BEq α] [LawfulBEq α] (l : List α) (a : α) :
    l.contains a = true ↔ a ∈ l := List.elem_iff

/-- Every row delivered by the friend-of-friend query satisfies the filters
of that query. -/
theorem mem_fofQuery (g : Grafo) (uid limit min_common : Nat)
    (r : Usuario × List Nat) (h : r ∈ fofQuery g uid limit min_common) :
    r.1 ∈ g.usuarios ∧ r.1.id_usuario ≠ uid ∧
    (uid, r.1.id_usuario) ∉ g.conexiones ∧
    r.2 = commonFriends g uid r.1.id_usuario ∧ r.2 ≠ [] ∧
    min_common ≤ r.2.length := by
  have h1 : r ∈ (fofRows g uid).filter (fun r => min_common ≤ r.2.length) := by
    have := List.mem_of_mem_take h
    rwa [mem_sortBy] at this
  rcases List.mem_filter.mp h1 with ⟨h2, h3⟩
  have hmin : min_common ≤ r.2.length := by simpa using h3
  simp only [fofRows, List.mem_map, List.mem_filter] at h2
  rcases h2 with ⟨fof, ⟨hfof, hcond⟩, rfl⟩
  simp only [Bool.and_eq_true, decide_eq_true_eq, Bool.not_eq_true',
    ne_eq] at hcond
  rcases hcond with ⟨⟨hne, hdirect⟩, hnonempty⟩
  refine ⟨hfof, by simpa using hne, ?_, rfl, ?_, hmin⟩
  · intro hc
    rw [← contains_iff_mem g.conexiones (uid, fof.id_usuario)] at hc
    rw [hc] at hdirect
    cases hdirect
  · intro hnil
    have h4 : commonFriends g uid fof.id_usuario = [] := hnil
    rw [h4] at hnonempty
    simp at hnonempty

/-- The service returns the no-path success whenever no chain of length
`1..max_depth` exists and both endpoints resolve. -/
theorem get_shortest_path_no_chain (g : Grafo) (o d max_depth : Nat)
    (ho : (find_by_id g o).isSome = true)
    (hd : (find_by_id g d).isSome = true)
    (hno : ∀ k, k < max_depth + 1 → 1 ≤ k → chainExists g o d k = false) :
    get_shortest_path g o d max_depth = Except.ok noPathDTO := by
  rcases Option.isSome_iff_exists.mp ho with ⟨uo, huo⟩
  rcases Option.isSome_iff_exists.mp hd with ⟨ud, hud⟩
  have hfsp := find_shortest_path_none g o d max_depth hno
  simp only [get_shortest_path, huo, hud, hfsp]

-- ============================================================================
-- Concrete fixtures
-- ============================================================================

/-- Fixture person with synthetic properties. -/
def mkUsuario (i : Nat) : Usuario :=
  { id_usuario := i
    nombre := "Nombre" ++ toString i
    apellidos := "Apellidos" ++ toString i
    edad := 20 + i
    latitud := (i : ℚ) / 10
    longitud := -(i : ℚ) / 10 }

/-- Spec fixture: edges 1→2, 2→3, 1→4, 4→3. -/
def gPathFixture : Grafo :=
  { usuarios := [mkUsuario 1, mkUsuario 2, mkUsuario 3, mkUsuario 4]
    conexiones := [(1, 2), (2, 3), (1, 4), (4, 3)]
    hobbies := []
    tiene_hobby := [] }

/-- Fixture with a single isolated person. -/
def gIsolated : Grafo :=
  { usuarios := [mkUsuario 1]
    conexiones := []
    hobbies := []
    tiene_hobby := [] }

/-- Fixture with two persons and no edges. -/
def gDisconnected : Grafo :=
  { usuarios := [mkUsuario 1, mkUsuario 2]
    conexiones := []
    hobbies := []
    tiene_hobby := [] }

/-- Fixture with two persons and the single edge 1→2. -/
def gSingleEdge : Grafo :=
  { usuarios := [mkUsuario 1, mkUsuario 2]
    conexiones := [(1, 2)]
    hobbies := []
    tiene_hobby := [] }

/-- Spec fixture for recommendations: edges 1→2, 1→3, 2→5, 3→5. -/
def gRecFixture : Grafo :=
  { usuarios := [mkUsuario 1, mkUsuario 2, mkUsuario 3, mkUsuario 5]
    conexiones := [(1, 2), (1, 3), (2, 5), (3, 5)]
    hobbies := []
    tiene_hobby := [] }

-- ============================================================================
-- C1
-- ============================================================================

/-- C1: if origin and destination are joined by an undirected `CONECTADO`
chain, and `k` with `1 ≤ k ≤ maxDepth` is the first (hence minimal) length at
which a chain exists, then `shortestPath` succeeds with `exists = true`,
`length = k`, and a path of exactly `k + 1` vertices; depths are probed in
increasing order, so the first depth at which a chain is found is returned. -/
theorem spec_c1_shortest_path_first_depth (g : Grafo) (o d k max_depth : Nat)
    (ho : (find_by_id g o).isSome = true)
    (hd : (find_by_id g d).isSome = true)
    (hk1 : 1 ≤ k) (hk2 : k ≤ max_depth)
    (hmin : ∀ j, j < k → 1 ≤ j → chainExists g o d j = false)
    (hchain : chainExists g o d k = true) :
    ∃ r, get_shortest_path g o d max_depth = Except.ok r ∧
      r.path_exists = true ∧ r.length = k ∧ r.path.length = k + 1 := by
  rcases find_shortest_path_found g o d k max_depth hk1 hk2 hmin hchain with
    ⟨vids, _, hfsp, hlen⟩
  rcases Option.isSome_iff_exists.mp ho with ⟨uo, huo⟩
  rcases Option.isSome_iff_exists.mp hd with ⟨ud, hud⟩
  have hplen : (vids.map (mkPathNode g)).length = k + 1 := by simp [hlen]
  simp only [get_shortest_path, huo, hud, hfsp, hplen]
  simp only [Nat.succ_ne_zero, if_false]
  exact ⟨_, rfl, rfl, by simp, hplen⟩

/-- Witness for C1 on the spec fixture (edges 1→2, 2→3, 1→4, 4→3): the
shortest chain between 1 and 3 has length 2 and the returned path has three
vertices. -/
theorem spec_c1_witness :
    ∃ r, get_shortest_path gPathFixture 1 3 3 = Except.ok r ∧
      r.path_exists = true ∧ r.length = 2 ∧ r.path.length = 2 + 1 :=
  spec_c1_shortest_path_first_depth gPathFixture 1 3 2 3 (by decide) (by decide)
    (by decide) (by decide) (by decide) (by decide)

-- ============================================================================
-- C2 (corrected)
-- ============================================================================

/-- C2 counterexample: for the isolated person 1 the claim demands the
trivial single-vertex zero-length path and zero store probes, but
`shortestPath(1, 1, 1)` returns the no-path result with an empty (zero-vertex)
path and issues one store probe. -/
theorem spec_c2_counterexample :
    get_shortest_path gIsolated 1 1 1 = Except.ok noPathDTO ∧
    noPathDTO.path.length = 0 ∧ noPathDTO.path_exists = false ∧
    (find_shortest_path gIsolated 1 1 1).2 = 1 :=
  ⟨by rfl, by rfl, by rfl, by rfl⟩

/-- C2 amended: the code does not special-case origin = destination.
`shortestPath(x, x, maxDepth)` probes all depths `1..maxDepth` against the
store (issuing `maxDepth` probe queries) and, when no undirected chain of
positive length joins `x` to itself within the bound, returns the no-path
success with an empty path and length 0 rather than a single-vertex path. -/
theorem spec_c2_self_path_not_special_cased (g : Grafo) (x max_depth : Nat)
    (hx : (find_by_id g x).isSome = true)
    (hno : ∀ k, k < max_depth + 1 → 1 ≤ k → chainExists g x x k = false) :
    get_shortest_path g x x max_depth = Except.ok noPathDTO ∧
    (find_shortest_path g x x max_depth).2 = max_depth := by
  refine ⟨get_shortest_path_no_chain g x x max_depth hx hx hno, ?_⟩
  rw [find_shortest_path_none g x x max_depth hno]

/-- Witness for the amended C2 at the isolated person 1 with `maxDepth = 3`. -/
theorem spec_c2_witness :
    get_shortest_path gIsolated 1 1 3 = Except.ok noPathDTO ∧
    (find_shortest_path gIsolated 1 1 3).2 = 3 :=
  spec_c2_self_path_not_special_cased gIsolated 1 3 (by decide) (by decide)

-- ============================================================================
-- C8
-- ============================================================================

/-- C8: when no undirected chain of length at most `maxDepth` joins origin and
destination (both existing), `shortestPath` returns the successful result
with `exists = false`, an empty path and length 0 — an `Except.ok`, not an
`Except.error`. -/
theorem spec_c8_no_path_is_success (g : Grafo) (o d max_depth : Nat)
    (ho : (find_by_id g o).isSome = true)
    (hd : (find_by_id g d).isSome = true)
    (hno : ∀ k, k < max_depth + 1 → 1 ≤ k → chainExists g o d k = false) :
    get_shortest_path g o d max_depth =
      Except.ok { status_code := 200
                  message := "No existe un camino entre los usuarios"
                  path := []
                  length := 0
                  path_exists := false } :=
  get_shortest_path_no_chain g o d max_depth ho hd hno

/-- Witness for C8: persons 1 and 2 with no edges at all. -/
theorem spec_c8_witness :
    get_shortest_path gDisconnected 1 2 3 =
      Except.ok { status_code := 200
                  message := "No existe un camino entre los usuarios"
                  path := []
                  length := 0
                  path_exists := false } :=
  spec_c8_no_path_is_success gDisconnected 1 2 3 (by decide) (by decide) (by decide)

-- ============================================================================
-- C3 (corrected)
-- ============================================================================

theorem mem_undirSuccs (a c : Nat) (e : Nat × Nat) :
    c ∈ undirSuccs a e ↔ (e = (a, c) ∨ e = (c, a)) := by
  rcases e with ⟨x, y⟩
  by_cases hx : x = a <;> by_cases hy : y = a <;>
    simp [undirSuccs, hx, hy, Prod.ext_iff, eq_comm] <;> tauto

theorem mem_undirPaths_one (g : Grafo) (a : Nat) (p : List Nat) :
    p ∈ undirPaths g a 1 [] ↔
      ∃ e ∈ g.conexiones, ∃ c ∈ undirSuccs a e, p = [a, c] := by
  simp only [undirPaths, List.mem_flatMap, List.mem_filter, List.mem_map]
  constructor
  · rintro ⟨e, ⟨he, _⟩, c, hc, q, hq, rfl⟩
    simp only [List.mem_singleton] at hq
    exact ⟨e, he, c, hc, by rw [hq]⟩
  · rintro ⟨e, he, c, hc, rfl⟩
    exact ⟨e, ⟨he, by simp⟩, c, hc, [c], by simp, rfl⟩

theorem mem_egoReachable_one (g : Grafo) (uid v : Nat) :
    v ∈ egoReachable g uid 1 ↔
      ((uid, v) ∈ g.conexiones ∨ (v, uid) ∈ g.conexiones) := by
  simp only [egoReachable, List.mem_dedup, List.mem_flatMap]
  constructor
  · rintro ⟨k, hk, hv⟩
    have hk1 : k = 1 := by simpa using hk
    subst hk1
    rcases List.mem_filterMap.mp hv with ⟨p, hp, hlast⟩
    rcases (mem_undirPaths_one g uid p).mp hp with ⟨e, he, c, hc, rfl⟩
    simp only [List.getLast?_cons_cons, List.getLast?_singleton, Option.some.injEq] at hlast
    subst hlast
    rcases (mem_undirSuccs uid c e).mp hc with rfl | rfl
    · exact Or.inl he
    · exact Or.inr he
  · intro h
    refine ⟨1, by simp, ?_⟩
    rcases h with h | h
    · exact List.mem_filterMap.mpr ⟨[uid, v],
        (mem_undirPaths_one g uid _).mpr
          ⟨(uid, v), h, v, (mem_undirSuccs uid v (uid, v)).mpr (Or.inl rfl), rfl⟩,
        by simp⟩
    · exact List.mem_filterMap.mpr ⟨[uid, v],
        (mem_undirPaths_one g uid _).mpr
          ⟨(v, uid), h, v, (mem_undirSuccs uid v (v, uid)).mpr (Or.inr rfl), rfl⟩,
        by simp⟩

theorem mem_egoEdges (g : Grafo) (ids : List Nat) (e : EgoEdge)
    (h : e ∈ egoEdges g ids) :
    (∃ a ∈ ids, e.source = toString a) ∧ (∃ b ∈ ids, e.target = toString b) := by
  unfold egoEdges at h
  by_cases hemp : ids.isEmpty
  · rw [if_pos hemp] at h
    cases h
  · rw [if_neg hemp] at h
    rw [List.mapIdx_eq_enum_map] at h
    rcases List.mem_map.mp h with ⟨⟨i, ed⟩, hmem, rfl⟩
    have hlt := List.mem_enum hmem
    have hed : ed ∈ (g.conexiones.filter
        (fun e => ids.contains e.1 && ids.contains e.2)).dedup := by
      rw [hlt.2]
      exact List.getElem_mem hlt.1
    rw [List.mem_dedup] at hed
    rcases List.mem_filter.mp hed with ⟨_, hcond⟩
    rcases Bool.and_eq_true_iff.mp hcond with ⟨hc1, hc2⟩
    exact ⟨⟨ed.1, (contains_iff_mem ids ed.1).mp hc1, rfl⟩,
           ⟨ed.2, (contains_iff_mem ids ed.2).mp hc2, rfl⟩⟩

/-- C3 counterexample: for the graph with the single edge 1→2 the claim
demands that the depth-1 ego node set of user 1 equal `{1, 2}` (centre
included), but the nodes query returns only the neighbour 2 — the centre is
absent. -/
theorem spec_c3_counterexample :
    egoNodeIds gSingleEdge 1 1 500 = [2] ∧ 1 ∉ egoNodeIds gSingleEdge 1 1 500 := by
  refine ⟨by decide, by decide⟩

/-- C3 amended: in a graph without a self-loop at `user`, and with the
neighbour count within `maxNodes`, the node set of `egoGraph(user, depth=1)`
equals exactly the set of users adjacent to `user` by an undirected
`CONECTADO` edge, the centre vertex itself being excluded; and both endpoints
of every returned edge are ids of the returned node set. -/
theorem spec_c3_ego_depth1_nodes (g : Grafo) (uid max_nodes : Nat)
    (hself : (uid, uid) ∉ g.conexiones)
    (hcap : (egoReachable g uid 1).length ≤ max_nodes) :
    (∀ v, v ∈ egoNodeIds g uid 1 max_nodes ↔
      ((uid, v) ∈ g.conexiones ∨ (v, uid) ∈ g.conexiones)) ∧
    uid ∉ egoNodeIds g uid 1 max_nodes ∧
    (∀ e ∈ (get_ego_subgraph g uid 1 max_nodes).2,
      (∃ a ∈ egoNodeIds g uid 1 max_nodes, e.source = toString a) ∧
      (∃ b ∈ egoNodeIds g uid 1 max_nodes, e.target = toString b)) := by
  have hids : egoNodeIds g uid 1 max_nodes = egoReachable g uid 1 :=
    List.take_of_length_le hcap
  have hmem : ∀ v, v ∈ egoNodeIds g uid 1 max_nodes ↔
      ((uid, v) ∈ g.conexiones ∨ (v, uid) ∈ g.conexiones) := by
    intro v
    rw [hids]
    exact mem_egoReachable_one g uid v
  refine ⟨hmem, ?_, ?_⟩
  · intro hc
    rcases (hmem uid).mp hc with h | h
    · exact hself h
    · exact hself h
  · intro e he
    exact mem_egoEdges g (egoNodeIds g uid 1 max_nodes) e he

/-- Witness for the amended C3 on the single-edge graph 1→2 at user 1. -/
theorem spec_c3_witness :
    (∀ v, v ∈ egoNodeIds gSingleEdge 1 1 500 ↔
      ((1, v) ∈ gSingleEdge.conexiones ∨ (v, 1) ∈ gSingleEdge.conexiones)) ∧
    1 ∉ egoNodeIds gSingleEdge 1 1 500 ∧
    (∀ e ∈ (get_ego_subgraph gSingleEdge 1 1 500).2,
      (∃ a ∈ egoNodeIds gSingleEdge 1 1 500, e.source = toString a) ∧
      (∃ b ∈ egoNodeIds gSingleEdge 1 1 500, e.target = toString b)) :=
  spec_c3_ego_depth1_nodes gSingleEdge 1 500 (by decide) (by decide)

-- ============================================================================
-- C4
-- ============================================================================

/-- C4: the exposed egoGraph endpoint accepts `depth` only in `1..2` and
`maxNodes` only in `10..2000`; any out-of-range value is rejected with a 422
validation error by the route declaration before the handler runs, so zero
store calls (no vertex lookup, no traversal query) are made. -/
theorem spec_c4_ego_validation_before_store (g : Grafo) (uid : Nat)
    (depth max_nodes : Int)
    (h : depth < 1 ∨ 2 < depth ∨ max_nodes < 10 ∨ 2000 < max_nodes) :
    ego_endpoint g uid depth max_nodes =
      (Except.error { status_code := 422, detail := "validation error" }, 0) := by
  unfold ego_endpoint
  by_cases h1 : (decide (depth < 1) || decide (depth > 2)) = true
  · rw [if_pos h1]
  · rw [if_neg h1]
    have h2 : (decide (max_nodes < 10) || decide (max_nodes > 2000)) = true := by
      simp only [Bool.or_eq_true, decide_eq_true_eq]
      simp only [Bool.or_eq_true, decide_eq_true_eq, not_or, not_lt] at h1
      rcases h with h | h | h | h
      · omega
      · omega
      · exact Or.inl h
      · exact Or.inr h
    rw [if_pos h2]

/-- Witness for C4: `depth = 3` (which the inner service would accept) is
already rejected at the route with zero store calls. -/
theorem spec_c4_witness :
    ((3 : Int) < 1 ∨ (2 : Int) < 3 ∨ (500 : Int) < 10 ∨ (2000 : Int) < 500) ∧
    ego_endpoint gSingleEdge 1 3 500 =
      (Except.error { status_code := 422, detail := "validation error" }, 0) :=
  ⟨by norm_num,
   spec_c4_ego_validation_before_store gSingleEdge 1 3 500 (by norm_num)⟩

-- ============================================================================
-- C5 (corrected)
-- ============================================================================

/-- C5 counterexample: on the malformed envelope string `not json` (invalid
JSON after stripping), the claim demands a decode error carrying a truncated
copy of the input, but the array decoder silently returns the empty list and
the scalar decoder silently returns the raw string. -/
theorem spec_c5_counterexample :
    parse_agtype_array (PyVal.pystr "not json") = Except.ok [] ∧
    parse_agtype (some "not json") = some (Sum.inr "not json") :=
  ⟨by rfl, by rfl⟩

/-- C5 amended: for every envelope string that is not valid JSON (after
stripping the type tag for the array decoder), `_parse_agtype_array` silently
substitutes the empty list and `_parse_agtype` silently substitutes the raw
string; no decode error carrying the input is ever produced on this path. -/
theorem spec_c5_silent_default_on_malformed (s : String)
    (harr : (jsonLoads (stripTypeTag (pyStrip s))).isNone = true)
    (hstr : (jsonLoads s).isNone = true) :
    parse_agtype_array (PyVal.pystr s) = Except.ok [] ∧
    parse_agtype (some s) = some (Sum.inr s) := by
  have harr2 : jsonLoads (stripTypeTag (pyStrip s)) = none :=
    Option.isNone_iff_eq_none.mp harr
  have hstr2 : jsonLoads s = none := Option.isNone_iff_eq_none.mp hstr
  constructor
  · show parse_agtype_array_str s = Except.ok []
    unfold parse_agtype_array_str
    by_cases hempty : (pyStrip s = "" || pyStrip s = "[]") = true
    · rw [if_pos hempty]
    · rw [if_neg hempty]
      simp only [harr2]
  · show (match jsonLoads s with
      | some j => some (Sum.inl j)
      | none => some (Sum.inr s)) = some (Sum.inr s)
    rw [hstr2]

/-- Witness for the amended C5 at the malformed string `banana`. -/
theorem spec_c5_witness :
    (jsonLoads (stripTypeTag (pyStrip "banana"))).isNone = true ∧
    (jsonLoads "banana").isNone = true ∧
    parse_agtype_array (PyVal.pystr "banana") = Except.ok [] ∧
    parse_agtype (some "banana") = some (Sum.inr "banana") :=
  ⟨by rfl, by rfl,
   (spec_c5_silent_default_on_malformed "banana" (by rfl) (by rfl)).1,
   (spec_c5_silent_default_on_malformed "banana" (by rfl) (by rfl)).2⟩

-- ============================================================================
-- C6 and C7
-- ============================================================================

theorem mem_commonFriends (g : Grafo) (uid fid y : Nat)
    (h : y ∈ commonFriends g uid fid) :
    (uid, y) ∈ g.conexiones ∧ (y, fid) ∈ g.conexiones := by
  rw [commonFriends, List.mem_dedup] at h
  rcases List.mem_filter.mp h with ⟨_, hc⟩
  rcases Bool.and_eq_true_iff.mp hc with ⟨h1, h2⟩
  exact ⟨(contains_iff_mem _ _).mp h1, (contains_iff_mem _ _).mp h2⟩

theorem get_fof_eq (g : Grafo) (uid limit min_common : Nat) :
    get_friend_of_friend_recommendations g uid limit min_common =
      if (fofQuery g uid limit min_common).isEmpty then []
      else
        (fofQuery g uid limit min_common).map (fun r =>
          { id_usuario := r.1.id_usuario
            nombre_completo := r.1.nombre ++ " " ++ r.1.apellidos
            common_friends := r.2.length
            common_friends_ids := r.2
            score := pyRound2 ((r.2.length : ℚ) /
              (fofMaxCommon (fofQuery g uid limit min_common) : ℚ)) }) := rfl

theorem fofMaxCommon_eq_true_max (g : Grafo) (uid limit min_common : Nat)
    (hne : fofQuery g uid limit min_common ≠ []) :
    fofMaxCommon (fofQuery g uid limit min_common) =
      ((fofQuery g uid limit min_common).map (fun r => r.2.length)).foldl natMaxIf 0 := by
  have hmap : fofMaxCommon (fofQuery g uid limit min_common) =
      ((fofQuery g uid limit min_common).map (fun r => r.2.length)).foldl natMaxIf 1 := by
    rw [fofMaxCommon, List.foldl_map]
  rw [hmap]
  apply foldl_natMaxIf_one
  rcases List.exists_mem_of_ne_nil _ hne with ⟨r, hr⟩
  refine ⟨r.2.length, List.mem_map_of_mem _ hr, ?_⟩
  have hnil := (mem_fofQuery g uid limit min_common r hr).2.2.2.2.1
  exact List.length_pos.mpr hnil

/-- C6: every retained candidate of a nonempty recommendation result is
scored as its common count divided by the maximum common count observed
within the truncated (post-limit) result set, rounded to two decimals; the
empty result is returned as-is without any division. -/
theorem spec_c6_score_normalization (g : Grafo) (uid limit min_common : Nat)
    (rec : Recommendation)
    (hmem : rec ∈ get_friend_of_friend_recommendations g uid limit min_common) :
    rec.score = pyRound2 ((rec.common_friends : ℚ) /
      (maxCommonObserved (get_friend_of_friend_recommendations g uid limit min_common) : ℚ)) := by
  by_cases hemp : (fofQuery g uid limit min_common).isEmpty = true
  · rw [get_fof_eq, if_pos hemp] at hmem
    cases hmem
  · have hne : fofQuery g uid limit min_common ≠ [] := by
      intro h0
      rw [h0] at hemp
      simp at hemp
    have hmo : maxCommonObserved
        (get_friend_of_friend_recommendations g uid limit min_common) =
        fofMaxCommon (fofQuery g uid limit min_common) := by
      rw [get_fof_eq, if_neg hemp, maxCommonObserved, List.map_map,
        fofMaxCommon_eq_true_max g uid limit min_common hne]
      rfl
    rw [hmo]
    rw [get_fof_eq, if_neg hemp] at hmem
    rcases List.mem_map.mp hmem with ⟨r, _, rfl⟩
    rfl

/-- Witness for C6 on the spec fixture (edges 1→2, 1→3, 2→5, 3→5,
recommend(1, 10, 1)): the result is nonempty and its entry is scored by the
normalization formula. -/
theorem spec_c6_witness :
    ∃ rec ∈ get_friend_of_friend_recommendations gRecFixture 1 10 1,
      rec.score = pyRound2 ((rec.common_friends : ℚ) /
        (maxCommonObserved (get_friend_of_friend_recommendations gRecFixture 1 10 1) : ℚ)) := by
  have hne : get_friend_of_friend_recommendations gRecFixture 1 10 1 ≠ [] := by decide
  rcases List.exists_mem_of_ne_nil _ hne with ⟨rec, hrec⟩
  exact ⟨rec, hrec, spec_c6_score_normalization gRecFixture 1 10 1 rec hrec⟩

/-- C7: every recommendation is reachable in exactly two directed `CONECTADO`
hops from the user, is neither the user itself nor a direct out-neighbour of
the user, and has at least `minCommon` common friends; the list is sorted by
common count descending and holds at most `limit` entries. -/
theorem spec_c7_fof_guarantees (g : Grafo) (uid limit min_common : Nat) :
    (∀ rec ∈ get_friend_of_friend_recommendations g uid limit min_common,
       (∃ f, (uid, f) ∈ g.conexiones ∧ (f, rec.id_usuario) ∈ g.conexiones) ∧
       rec.id_usuario ≠ uid ∧
       (uid, rec.id_usuario) ∉ g.conexiones ∧
       min_common ≤ rec.common_friends) ∧
    (get_friend_of_friend_recommendations g uid limit min_common).Pairwise
      (fun a b => b.common_friends ≤ a.common_friends) ∧
    (get_friend_of_friend_recommendations g uid limit min_common).length ≤ limit := by
  by_cases hemp : (fofQuery g uid limit min_common).isEmpty = true
  · rw [get_fof_eq, if_pos hemp]
    refine ⟨?_, List.Pairwise.nil, by simp⟩
    intro rec h
    cases h
  · rw [get_fof_eq, if_neg hemp]
    refine ⟨?_, ?_, ?_⟩
    · intro rec hmem
      rcases List.mem_map.mp hmem with ⟨r, hr, rfl⟩
      rcases mem_fofQuery g uid limit min_common r hr with
        ⟨_, hne, hdirect, hcf, hnil, hmin⟩
      refine ⟨?_, hne, hdirect, hmin⟩
      rcases List.exists_mem_of_ne_nil _ hnil with ⟨y, hy⟩
      rw [hcf] at hy
      rcases mem_commonFriends g uid r.1.id_usuario y hy with ⟨h1, h2⟩
      exact ⟨y, h1, h2⟩
    · rw [List.pairwise_map]
      have hsorted := pairwise_sortBy
        (fun a b : Usuario × List Nat => decide (b.2.length ≤ a.2.length))
        (fun a b => by
          rcases Nat.le_total b.2.length a.2.length with h | h
          · exact Or.inl (by simpa using h)
          · exact Or.inr (by simpa using h))
        (fun a b c hab hbc => by
          simp only [decide_eq_true_eq] at *
          omega)
        ((fofRows g uid).filter (fun r => min_common ≤ r.2.length))
      have htake := hsorted.sublist (List.take_sublist limit _)
      refine List.Pairwise.imp ?_ htake
      intro a b h
      simpa using h
    · rw [List.length_map]
      exact List.length_take_le limit _

-- ============================================================================
-- C9
-- ============================================================================

theorem mem_hobbyMembers (g : Grafo) (hid u : Nat) :
    u ∈ hobbyMembers g hid ↔ (u ∈ usuarioIds g ∧ (u, hid) ∈ g.tiene_hobby) := by
  rw [hobbyMembers, List.mem_dedup]
  constructor
  · intro h
    rcases List.mem_filter.mp h with ⟨h1, h2⟩
    exact ⟨h1, (contains_iff_mem _ _).mp h2⟩
  · intro h
    exact List.mem_filter.mpr ⟨h.1, (contains_iff_mem _ _).mpr h.2⟩

/-- C9: every community has at least two members, its member set equals
exactly the set of people holding a `TIENE_HOBBY` edge to the grouping hobby,
and the communities are ordered by member count descending. -/
theorem spec_c9_communities (g : Grafo) :
    (∀ c ∈ detect_communities_by_hobby g,
       2 ≤ c.size ∧ c.size = c.members.length ∧
       (∀ u, u ∈ c.members ↔
         (u ∈ usuarioIds g ∧ (u, c.community_id) ∈ g.tiene_hobby))) ∧
    (detect_communities_by_hobby g).Pairwise (fun a b => b.size ≤ a.size) := by
  constructor
  · intro c hc
    rw [detect_communities_by_hobby] at hc
    rcases List.mem_map.mp hc with ⟨r, hr, rfl⟩
    rw [mem_sortBy] at hr
    rcases List.mem_filter.mp hr with ⟨hrows, hsize⟩
    have hsize2 : 1 < r.2.2.length := by simpa using hsize
    rcases List.mem_map.mp hrows with ⟨h, _, rfl⟩
    exact ⟨hsize2, rfl, fun u => mem_hobbyMembers g h.id_hobby u⟩
  · rw [detect_communities_by_hobby, List.pairwise_map]
    have hsorted := pairwise_sortBy
      (fun a b : Nat × String × List Nat => decide (b.2.2.length ≤ a.2.2.length))
      (fun a b => by
        rcases Nat.le_total b.2.2.length a.2.2.length with h | h
        · exact Or.inl (by simpa using h)
        · exact Or.inr (by simpa using h))
      (fun a b c hab hbc => by
        simp only [decide_eq_true_eq] at *
        omega)
      ((g.hobbies.map (fun h => (h.id_hobby, h.nombre, hobbyMembers g h.id_hobby))).filter
        (fun r => r.2.2.length > 1))
    refine List.Pairwise.imp ?_ hsorted
    intro a b h
    simpa using h

-- ============================================================================
-- C10
-- ============================================================================

/-- C10: `allConnections` contains no entry with an empty neighbour list
(every listed neighbour is a genuine out-neighbour), no neighbour list
contains the entry id itself, and `totalConnections` equals the sum of the
per-entry neighbour-list lengths. -/
theorem spec_c10_all_connections (g : Grafo) :
    (∀ e ∈ (get_all_connections_service g).conexiones,
       e.conexiones ≠ [] ∧
       e.id_usuario ∉ e.conexiones ∧
       (∀ c ∈ e.conexiones, (e.id_usuario, c) ∈ g.conexiones)) ∧
    (get_all_connections_service g).total_conexiones =
      ((get_all_connections_service g).conexiones.map
        (fun e => e.conexiones.length)).sum := by
  refine ⟨?_, rfl⟩
  intro e he
  have he2 : e ∈ get_all_connections g := he
  rw [get_all_connections] at he2
  rcases List.mem_filterMap.mp he2 with ⟨u, _, hu⟩
  by_cases hemptyc :
      ((outNeighbors g u.id_usuario).filter (fun c => c ≠ u.id_usuario)).isEmpty = true
  · rw [if_pos hemptyc] at hu
    cases hu
  · rw [if_neg hemptyc] at hu
    cases hu
    refine ⟨?_, ?_, ?_⟩
    · intro h0
      have h0b : (outNeighbors g u.id_usuario).filter
          (fun c => decide (c ≠ u.id_usuario)) = [] := h0
      rw [h0b] at hemptyc
      simp at hemptyc
    · intro hself
      have := List.mem_filter.mp hself
      simp at this
    · intro c hcmem
      rcases List.mem_filter.mp hcmem with ⟨hout, _⟩
      rw [outNeighbors, List.mem_dedup] at hout
      rcases List.mem_filter.mp hout with ⟨_, hcontains⟩
      exact (contains_iff_mem _ _).mp hcontains
